import Mathlib

/-!
Verification of the kindspread Web Push Dispatch Engine.

The definitions below are a shallow embedding of the repository's
TypeScript source (src/lib/server/web-push.ts, the scheduled dispatch
handler in hooks.server.ts, and the subscribe API route), together with
the ambient platform semantics those functions rely on (atob per the
WHATWG forgiving-base64 algorithm, TextEncoder UTF-8 encoding, the
WebCrypto operations, URL origin extraction and the SQLite upsert).
Byte sequences are modelled as List Nat with values below 256; the
ambient cryptography (P-256 ECDH, HKDF-SHA256, AES-128-GCM, ECDSA) is
injected as a CryptoProvider capability, with its mathematical
properties (ECDH agreement symmetry, AES-GCM round trip, 65-byte
uncompressed public-key export) stated as explicit assumptions in the
structure CryptoOk.
-/

set_option maxRecDepth 10000

/-! ## Codec primitives -/

/-- UTF-8 encoding of a single character (TextEncoder semantics). -/
def utf8Char (c : Char) : List Nat :=
  let n := c.toNat
  if n < 128 then [n]
  else if n < 2048 then [192 + n / 64, 128 + n % 64]
  else if n < 65536 then [224 + n / 4096, 128 + n / 64 % 64, 128 + n % 64]
  else [240 + n / 262144, 128 + n / 4096 % 64, 128 + n / 64 % 64, 128 + n % 64]

/-- TextEncoder().encode: UTF-8 bytes of a string. -/
def utf8Encode (s : String) : List Nat := (s.data.map utf8Char).flatten

/-- The 62 characters both base64 alphabets share, in index order:
uppercase, lowercase, digits. -/
def b64Alphanum : List Char :=
  (List.range 26).map (fun i => Char.ofNat (65 + i))
    ++ (List.range 26).map (fun i => Char.ofNat (97 + i))
    ++ (List.range 10).map (fun i => Char.ofNat (48 + i))

/-- The standard base64 alphabet (indices 0..63), as used by atob/btoa. -/
def b64Alphabet : List Char := b64Alphanum ++ ['+', '/']

/-- The base64url alphabet (indices 0..63): '+' and '/' replaced by '-' and '_'. -/
def b64UrlAlphabet : List Char := b64Alphanum ++ ['-', '_']

def b64ValAux : List Char → Char → Nat
  | [], _ => 0
  | a :: rest, c => if a == c then 0 else 1 + b64ValAux rest c

/-- Index of a character in the standard base64 alphabet. -/
def b64Val (c : Char) : Nat := b64ValAux b64Alphabet c

/-- Sextet values of a byte sequence, grouped in threes (btoa semantics,
before the padding characters are attached). -/
def b64GroupsEnc : List Nat → List Nat
  | b1 :: b2 :: b3 :: rest =>
    b1 / 4 :: (b1 % 4 * 16 + b2 / 16) :: (b2 % 16 * 4 + b3 / 64) :: b3 % 64 ::
      b64GroupsEnc rest
  | [b1, b2] => [b1 / 4, b1 % 4 * 16 + b2 / 16, b2 % 16 * 4]
  | [b1] => [b1 / 4, b1 % 4 * 16]
  | [] => []

/-- uint8ArrayToBase64Url from web-push.ts: btoa of the byte string, with
'+' replaced by '-', '/' by '_' and trailing '=' stripped.  Folding the
replacements into the alphabet gives the same string. -/
def uint8ArrayToBase64Url (bytes : List Nat) : String :=
  String.mk ((b64GroupsEnc bytes).map (fun v => b64UrlAlphabet.getD v 'A'))

/-- ASCII whitespace (tab, line feed, form feed, carriage return,
space), as removed by the forgiving-base64 algorithm. -/
def isAsciiWs (c : Char) : Bool :=
  [9, 10, 12, 13, 32].contains c.toNat

/-- Remove one or two trailing '=' characters (forgiving-base64 step for
inputs whose length is a multiple of four). -/
def stripTrailingPad (cs : List Char) : List Char :=
  if cs.getLast? = some '=' then
    let cs2 := cs.dropLast
    if cs2.getLast? = some '=' then cs2.dropLast else cs2
  else cs

/-- Emit bytes from a stream of sextet values, keeping an accumulator of
pending bits (forgiving-base64 output phase; trailing bits discarded). -/
def b64DecodeAux : List Nat → Nat → Nat → List Nat
  | [], _, _ => []
  | v :: rest, acc, bits =>
    if 8 ≤ bits + 6 then
      (acc * 64 + v) / 2 ^ (bits + 6 - 8) % 256 ::
        b64DecodeAux rest ((acc * 64 + v) % 2 ^ (bits + 6 - 8)) (bits + 6 - 8)
    else b64DecodeAux rest (acc * 64 + v) (bits + 6)

/-- atob: the WHATWG forgiving-base64 decode.  Removes ASCII whitespace,
strips up to two trailing '=' when the length is a multiple of four,
fails when the remaining length is 1 mod 4 or a character outside the
standard base64 alphabet remains, and otherwise emits the decoded bytes. -/
def atobList (input : List Char) : Option (List Nat) :=
  let ws := input.filter (fun c => !(isAsciiWs c))
  let data := if ws.length % 4 == 0 then stripTrailingPad ws else ws
  if data.length % 4 == 1 then none
  else if data.any (fun c => !(b64Alphabet.contains c)) then none
  else some (b64DecodeAux (data.map b64Val) 0 0)

/-- JavaScript string length (UTF-16 code units). -/
def utf16Len (s : String) : Nat :=
  s.data.foldl (fun n c => n + if 65536 ≤ c.toNat then 2 else 1) 0

/-- The character replacement performed before atob: '-' back to '+'
and '_' back to '/'. -/
def b64Repl (c : Char) : Char :=
  if c == '-' then '+' else if c == '_' then '/' else c

/-- base64UrlToUint8Array from web-push.ts: append '=' padding up to a
multiple of four, replace '-' with '+' and '_' with '/', then atob.
A thrown atob error is modelled as none. -/
def base64UrlToUint8Array (base64url : String) : Option (List Nat) :=
  let padding := List.replicate ((4 - utf16Len base64url % 4) % 4) '='
  let base64 := base64url.data.map b64Repl ++ padding
  atobList base64

/-- The base64url alphabet of the spec's codec contract: A-Z, a-z, 0-9,
'-' and '_'. -/
def isBase64UrlAlphabet (c : Char) : Bool := b64UrlAlphabet.contains c

/-- The characters the source's decoder can tolerate somewhere in its
input: the base64url and standard base64 alphabets, '=' and ASCII
whitespace.  Anything else is guaranteed to make atob throw. -/
def b64LenientAllowed (c : Char) : Bool :=
  b64Alphabet.contains c || c == '-' || c == '_' || c == '=' || isAsciiWs c


/-! ## Injected cryptography provider (ambient WebCrypto capability) -/

/-- The ambient WebCrypto operations used by web-push.ts, injected as a
capability.  Byte strings are List Nat.  pubOf is the raw (uncompressed)
export of the public key belonging to a private key; validPub models
whether importKey("raw", ...) of a candidate P-256 public key succeeds;
ecdh is deriveBits over ECDH (private key, peer public key); hkdf is
deriveBits over HKDF-SHA256 (input key material, salt, info, output
byte count); aesGcmEnc/aesGcmDec are AES-GCM with the tag appended to
the ciphertext; importJwkOk models whether importKey("jwk", ...) of the
VAPID signing key (x, y, d segments) succeeds, and ecdsaSign is the
ECDSA-SHA256 signature by the private key d over a message. -/
structure CryptoProvider where
  pubOf : List Nat → List Nat
  validPub : List Nat → Bool
  ecdh : List Nat → List Nat → List Nat
  hkdf : List Nat → List Nat → List Nat → Nat → List Nat
  aesGcmEnc : List Nat → List Nat → List Nat → List Nat
  aesGcmDec : List Nat → List Nat → List Nat → Option (List Nat)
  importJwkOk : String → String → String → Bool
  ecdsaSign : String → List Nat → List Nat

/-- Mathematical facts about the ambient cryptography that the protocol
relies on: raw P-256 public keys export as 65 bytes starting with 0x04,
only 65-byte points import successfully, ECDH agreement is symmetric,
and AES-GCM appends a 16-byte tag and decrypts what it encrypted. -/
structure CryptoOk (C : CryptoProvider) : Prop where
  pub_len : ∀ x, (C.pubOf x).length = 65
  pub_head : ∀ x, (C.pubOf x).headD 0 = 4
  valid_len : ∀ p, C.validPub p = true → p.length = 65
  ecdh_comm : ∀ x y, C.ecdh x (C.pubOf y) = C.ecdh y (C.pubOf x)
  gcm_len : ∀ k iv m, (C.aesGcmEnc k iv m).length = m.length + 16
  gcm_dec : ∀ k iv m, C.aesGcmDec k iv (C.aesGcmEnc k iv m) = some m

/-! ## Message Encryptor (encryptPayload, web-push.ts) -/

/-- Big-endian 32-bit encoding (DataView.setUint32 with littleEndian = false). -/
def be32 (n : Nat) : List Nat :=
  [n / 16777216 % 256, n / 65536 % 256, n / 256 % 256, n % 256]

/-- The record-size field value hardcoded in encryptPayload. -/
def recordSize : Nat := 4096

/-- HKDF info for the content-encryption key: "Content-Encoding: aes128gcm\x00". -/
def cekInfoBytes : List Nat := utf8Encode "Content-Encoding: aes128gcm" ++ [0]

/-- HKDF info for the nonce: "Content-Encoding: nonce\x00". -/
def nonceInfoBytes : List Nat := utf8Encode "Content-Encoding: nonce" ++ [0]

/-- encryptPayload from web-push.ts (RFC 8291 aes128gcm).  The ephemeral
private key and the 16-byte random salt, produced inside the function by
crypto.subtle.generateKey and crypto.getRandomValues, are passed in
explicitly; every other step mirrors the source: decode the recipient
key material, import the recipient public key (validPub), ECDH, derive
the IKM with the "WebPush: info\x00" label and both public keys, derive
CEK and nonce, append the 0x02 delimiter, AES-GCM encrypt, and emit
salt, record size, key-id length, ephemeral public key, ciphertext.
A thrown error (decode or import failure) is modelled as none. -/
def encryptPayload (C : CryptoProvider) (ephPriv salt : List Nat)
    (payload p256dhKey authSecret : String) : Option (List Nat) :=
  match base64UrlToUint8Array p256dhKey with
  | none => none
  | some subscriberPublicKey =>
    match base64UrlToUint8Array authSecret with
    | none => none
    | some subscriberAuth =>
      if C.validPub subscriberPublicKey then
        let localPublicKeyBytes := C.pubOf ephPriv
        let sharedSecret := C.ecdh ephPriv subscriberPublicKey
        let authInfo :=
          utf8Encode "WebPush: info" ++ [0] ++ subscriberPublicKey ++ localPublicKeyBytes
        let ikm := C.hkdf sharedSecret subscriberAuth authInfo 32
        let cek := C.hkdf ikm salt cekInfoBytes 16
        let nonce := C.hkdf ikm salt nonceInfoBytes 12
        let paddedPayload := utf8Encode payload ++ [2]
        let encrypted := C.aesGcmEnc cek nonce paddedPayload
        some (salt ++ (be32 recordSize ++ ([localPublicKeyBytes.length % 256]
          ++ (localPublicKeyBytes ++ encrypted))))
      else none

/-- Modelled from the spec: RFC 8291 padding removal on the recipient
side — drop trailing zero octets, then the delimiter octet, which must
be 0x02 for the final (single) record. -/
def stripPad (padded : List Nat) : Option (List Nat) :=
  match padded.reverse.dropWhile (fun b => b == 0) with
  | b :: rest => if b == 2 then some rest.reverse else none
  | [] => none

/-- Modelled from the spec: the reference RFC 8291 aes128gcm decryption
procedure performed by the recipient (it is not part of this repository;
the spec calls for "the reverse decryption procedure performed by a
reference implementation standing in for the recipient").  Parse the
record as salt(16) + rs(4) + idlen(1) + keyid(idlen) + ciphertext,
recompute the shared secret from the recipient private key and the
ephemeral public key carried as keyid, derive IKM, CEK and nonce as in
RFC 8291, AES-GCM decrypt, and strip the trailing padding delimiter
(a 0x02 byte, preceded only by the plaintext). -/
def decryptRecord (C : CryptoProvider) (recipPriv authSecret record : List Nat) :
    Option (List Nat) :=
  let salt := record.take 16
  let idlen := (record.drop 20).headD 0
  let keyid := (record.drop 21).take idlen
  let ct := record.drop (21 + idlen)
  if record.length < 21 + idlen + 16 then none
  else
    let recipPub := C.pubOf recipPriv
    let sharedSecret := C.ecdh recipPriv keyid
    let authInfo := utf8Encode "WebPush: info" ++ [0] ++ recipPub ++ keyid
    let ikm := C.hkdf sharedSecret authSecret authInfo 32
    let cek := C.hkdf ikm salt cekInfoBytes 16
    let nonce := C.hkdf ikm salt nonceInfoBytes 12
    match C.aesGcmDec cek nonce ct with
    | none => none
    | some padded => stripPad padded

/-- The spec's step 5, written from its words: the intermediate key
material is HKDF-SHA256 with the ECDH shared secret as the input key,
the recipient auth secret as the salt, and an info string holding the
protocol label together with the recipient and ephemeral public keys. -/
def ikmSpec (C : CryptoProvider) (sharedSecret authSecret recipPub ephPub : List Nat) :
    List Nat :=
  C.hkdf sharedSecret authSecret
    (utf8Encode "WebPush: info" ++ [0] ++ recipPub ++ ephPub) 32

/-! ## VAPID Signer (createVapidJwt / createVapidAuthHeader, web-push.ts) -/

/-- JS Array/TypedArray slice(a, b): elements at indices a..b-1. -/
def listSlice (l : List Nat) (a b : Nat) : List Nat := (l.drop a).take (b - a)

/-- Lowercase hexadecimal digit, as JSON.stringify prints in escapes. -/
def hexDigit (n : Nat) : Char :=
  Char.ofNat (if n < 10 then 48 + n else 87 + n)

/-- JSON.stringify escaping of one character inside a string literal. -/
def jsonEscapeChar (c : Char) : List Char :=
  if c == '"' then ['\\', '"']
  else if c == '\\' then ['\\', '\\']
  else if c == '\x08' then ['\\', 'b']
  else if c == '\t' then ['\\', 't']
  else if c == '\n' then ['\\', 'n']
  else if c == '\x0c' then ['\\', 'f']
  else if c == '\r' then ['\\', 'r']
  else if c.toNat < 32 then ['\\', 'u', '0', '0', hexDigit (c.toNat / 16), hexDigit (c.toNat % 16)]
  else [c]

/-- JSON.stringify of a string value, quotes included. -/
def jsonString (s : String) : String :=
  "\"" ++ String.mk ((s.data.map jsonEscapeChar).flatten) ++ "\""

/-- JSON.stringify of the JWT header object built by createVapidJwt. -/
def vapidHeaderJson : String := "\x7b\"typ\":\"JWT\",\"alg\":\"ES256\"\x7d"

/-- JSON.stringify of the JWT claims object built by createVapidJwt, with
the keys in insertion order: aud, exp, sub. -/
def vapidClaimsJson (audience : String) (expiration : Nat) (subject : String) : String :=
  "\x7b\"aud\":" ++ jsonString audience ++ ",\"exp\":" ++ toString expiration
    ++ ",\"sub\":" ++ jsonString subject ++ "\x7d"

/-- createVapidJwt from web-push.ts: base64url-encode the UTF-8 JSON of
the header and the claims, join with '.', split the decoded 65-byte
public key into its x and y coordinates, import the JWK (x, y, d) and
sign the unsigned token, appending the base64url signature as the third
segment.  A thrown error (public-key decode or JWK import) is none. -/
def createVapidJwt (C : CryptoProvider)
    (audience subject publicKey privateKey : String) (expiration : Nat) :
    Option String :=
  let headerB64 := uint8ArrayToBase64Url (utf8Encode vapidHeaderJson)
  let payloadB64 :=
    uint8ArrayToBase64Url (utf8Encode (vapidClaimsJson audience expiration subject))
  let unsignedToken := headerB64 ++ "." ++ payloadB64
  match base64UrlToUint8Array publicKey with
  | none => none
  | some publicKeyBytes =>
    let x := uint8ArrayToBase64Url (listSlice publicKeyBytes 1 33)
    let y := uint8ArrayToBase64Url (listSlice publicKeyBytes 33 65)
    if C.importJwkOk x y privateKey then
      some (unsignedToken ++ "."
        ++ uint8ArrayToBase64Url (C.ecdsaSign privateKey (utf8Encode unsignedToken)))
    else none

/-- Modelled ambient URL semantics: new URL(endpoint).protocol (with the
trailing colon) and .host, for hierarchical scheme://host/... URLs; the
host part ends at the first '/', '?' or '#'.  A URL parse error is none. -/
def breakAtColon : List Char → Option (List Char × List Char)
  | [] => none
  | c :: rest =>
    if c == ':' then some ([], rest)
    else
      match breakAtColon rest with
      | some (a, b) => some (c :: a, b)
      | none => none

def urlSchemeHost (endpoint : String) : Option (String × String) :=
  match breakAtColon endpoint.data with
  | none => none
  | some (scheme, rest) =>
    if scheme.isEmpty then none
    else
      match rest with
      | '/' :: '/' :: rest2 =>
        some (String.mk (scheme ++ [':']),
          String.mk (rest2.takeWhile (fun c => !(c == '/' || c == '?' || c == '#'))))
      | _ => none

/-- createVapidAuthHeader from web-push.ts: audience is the endpoint's
scheme+host, expiration is Date.now()/1000 + 12 hours (nowMs is the
wall-clock time in milliseconds at the moment of the call), and the two
header values carry the token with the public key, and the public key
alone. -/
def createVapidAuthHeader (C : CryptoProvider)
    (endpoint subject publicKey privateKey : String) (nowMs : Nat) :
    Option (String × String) :=
  match urlSchemeHost endpoint with
  | none => none
  | some (protocol, host) =>
    let audience := protocol ++ "//" ++ host
    let expiration := nowMs / 1000 + 12 * 60 * 60
    match createVapidJwt C audience subject publicKey privateKey expiration with
    | none => none
    | some jwt =>
      some ("vapid t=" ++ jwt ++ ", k=" ++ publicKey, "p256ecdsa=" ++ publicKey)

/-! ## Dispatch Orchestrator (handleScheduled, hooks.server.ts) -/

/-- A row returned by SELECT endpoint, p256dh, auth FROM push_subscriptions
WHERE active = 1. -/
structure SubRow where
  endpoint : String
  p256dh : String
  auth : String
deriving DecidableEq

/-- One recipient's task inside Promise.all: encrypt the payload, build
the VAPID headers, POST to the endpoint, and report the endpoint as
expired exactly when the response status is 410 or 404.  The try/catch
around the task body converts any thrown failure (encryption, VAPID
signing, network error modelled as fetchStatus = none) into a logged
skip, i.e. none.  rnd carries the task's ephemeral private key and salt. -/
def deliverOne (C : CryptoProvider) (payload subject vapidPub vapidPriv : String)
    (nowMs : Nat) (fetchStatus : String → Option Nat) (rnd : List Nat × List Nat)
    (sub : SubRow) : Option String :=
  match encryptPayload C rnd.1 rnd.2 payload sub.p256dh sub.auth with
  | none => none
  | some _ =>
    match createVapidAuthHeader C sub.endpoint subject vapidPub vapidPriv nowMs with
    | none => none
    | some _ =>
      match fetchStatus sub.endpoint with
      | none => none
      | some status =>
        if status == 410 || status == 404 then some sub.endpoint else none

/-- The fan-out over the subscription list, collecting the expired
endpoints in list order (the i-th task draws its randomness from rnd i). -/
def runDeliveries (C : CryptoProvider) (payload subject vapidPub vapidPriv : String)
    (nowMs : Nat) (fetchStatus : String → Option Nat)
    (rnd : Nat → List Nat × List Nat) : Nat → List SubRow → List String
  | _, [] => []
  | i, sub :: rest =>
    match deliverOne C payload subject vapidPub vapidPriv nowMs fetchStatus (rnd i) sub with
    | some e =>
      e :: runDeliveries C payload subject vapidPub vapidPriv nowMs fetchStatus rnd (i + 1) rest
    | none => runDeliveries C payload subject vapidPub vapidPriv nowMs fetchStatus rnd (i + 1) rest

/-- handleScheduled from hooks.server.ts.  The result is the ordered list
of endpoints for which UPDATE push_subscriptions SET active = 0 is
issued; none models the cycle rejecting (which happens only when the
subscription query itself fails, modelled by query = none).  A missing
DB binding or an empty active-subscription list ends the cycle normally
with no deactivations. -/
def handleScheduled (C : CryptoProvider) (payload subject vapidPub vapidPriv : String)
    (nowMs : Nat) (fetchStatus : String → Option Nat) (rnd : Nat → List Nat × List Nat)
    (dbAvailable : Bool) (query : Option (List SubRow)) : Option (List String) :=
  if dbAvailable = false then some []
  else
    match query with
    | none => none
    | some results =>
      if results.isEmpty then some []
      else some (runDeliveries C payload subject vapidPub vapidPriv nowMs fetchStatus rnd 0 results)

/-! ## Subscribe route (src/routes/api/push/subscribe/+server.ts, POST) -/

/-- A push_subscriptions row (the columns the subscribe route touches). -/
structure StoredSub where
  endpoint : String
  p256dh : String
  auth : String
  active : Bool
deriving DecidableEq

/-- The parsed JSON request body: endpoint, keys.p256dh, keys.auth, each
possibly absent. -/
structure SubscribeBody where
  endpoint : Option String
  p256dh : Option String
  auth : Option String

/-- SQLite upsert semantics of the route's statement
INSERT INTO push_subscriptions (endpoint, p256dh, auth, active)
VALUES (?, ?, ?, 1) ON CONFLICT(endpoint) DO UPDATE SET
p256dh = excluded.p256dh, auth = excluded.auth, active = 1:
when a row with the endpoint exists it is updated in place, otherwise a
new active row is appended. -/
def upsertSubscription (table : List StoredSub) (e p a : String) : List StoredSub :=
  if table.any (fun r => r.endpoint == e) then
    table.map (fun r =>
      if r.endpoint == e then { endpoint := e, p256dh := p, auth := a, active := true }
      else r)
  else table ++ [{ endpoint := e, p256dh := p, auth := a, active := true }]

/-- The POST handler of /api/push/subscribe: returns the HTTP status and
the push_subscriptions table after the request.  A missing or falsy
(empty-string) endpoint, p256dh or auth is a 400; a missing DB binding
is a 500; otherwise the subscription is upserted and 200 returned. -/
def subscribePOST (dbAvailable : Bool) (table : List StoredSub) (body : SubscribeBody) :
    Nat × List StoredSub :=
  match body.endpoint, body.p256dh, body.auth with
  | some e, some p, some a =>
    if e == "" || p == "" || a == "" then (400, table)
    else if dbAvailable then (200, upsertSubscription table e p a)
    else (500, table)
  | _, _, _ => (400, table)

/-! ## A concrete toy cryptography provider

Used only to witness the theorems below at concrete inputs: it satisfies
every assumption in CryptoOk (65-byte public keys starting with 0x04,
symmetric key agreement, AES-GCM round trip with a 16-byte tag) while
staying cheap enough for kernel evaluation. -/

def toyPub (x : List Nat) : List Nat := 4 :: (x ++ List.replicate 64 0).take 64

def toyC : CryptoProvider where
  pubOf := toyPub
  validPub := fun p => p.length == 65
  ecdh := fun x p => List.replicate 32 ((x.take 64).sum * (p.drop 1).sum % 256)
  hkdf := fun ikm salt info n =>
    List.replicate n ((ikm.sum + salt.sum + info.sum) % 256)
  aesGcmEnc := fun _ _ m => m ++ List.replicate 16 0
  aesGcmDec := fun _ _ c =>
    if 16 ≤ c.length then some (c.take (c.length - 16)) else none
  importJwkOk := fun _ _ _ => true
  ecdsaSign := fun _ _ => List.replicate 64 0

/-- A base64url recipient public key for the witnesses: it decodes to the
65 bytes 0x04, 0x00 x 64, which is toyPub applied to the empty private key. -/
def pkStr : String :=
  "BAAAAAAAAAAAAAAAAAAAAAAAAAAAAAAAAAAAAAAAAAAAAAAAAAAAAAAAAAAAAAAAAAAAAAAAAAAAAAAAAAAAAAA"

/-- A base64url auth secret for the witnesses: decodes to 16 zero bytes. -/
def authStr : String := "AAAAAAAAAAAAAAAAAAAAAA"

def salt16 : List Nat := List.replicate 16 0

/-! ## Concrete witness data -/

/-- C2 witness: the record emitted for "hi" through the toy provider. -/
def recC2 : List Nat := (encryptPayload toyC [] salt16 "hi" pkStr authStr).getD []

def subA : SubRow := { endpoint := "https://push.test/a", p256dh := pkStr, auth := authStr }

def subB : SubRow := { endpoint := "https://push.test/b", p256dh := pkStr, auth := authStr }

def subD : SubRow := { endpoint := "https://push.test/c", p256dh := pkStr, auth := authStr }

/-- A subscription whose stored public key is not valid base64url, so its
encryption step fails. -/
def subBad : SubRow := { endpoint := "https://push.test/x", p256dh := "!!", auth := authStr }

/-- A delivery service answering 200, 410 and 500 on the three test
endpoints. -/
def fetchW : String → Option Nat := fun e =>
  if e == "https://push.test/a" then some 200
  else if e == "https://push.test/b" then some 410
  else if e == "https://push.test/c" then some 500
  else none

def rndW : Nat → List Nat × List Nat := fun _ => ([], salt16)

/-- A stored table holding one previously deactivated subscription. -/
def tableW : List StoredSub :=
  [{ endpoint := "https://push.test/b", p256dh := "old", auth := "old", active := false }]

/-! ## Theorems -/

theorem toyPub_len (x : List Nat) : (toyPub x).length = 65 := by
  simp [toyPub]

theorem toyPub_drop_sum (x : List Nat) : ((toyPub x).drop 1).sum = (x.take 64).sum := by
  show ((x ++ List.replicate 64 0).take 64).sum = (x.take 64).sum
  rw [List.take_append_eq_append_take, List.sum_append, List.take_replicate,
    List.sum_replicate]
  simp

theorem toyC_ok : CryptoOk toyC := by
  refine ⟨fun x => toyPub_len x, ?_, ?_, ?_, ?_, ?_⟩
  · intro x; simp [toyC, toyPub]
  · intro p hp
    have h2 : (p.length == 65) = true := hp
    simpa using h2
  · intro x y
    show List.replicate 32 ((x.take 64).sum * ((toyPub y).drop 1).sum % 256) =
      List.replicate 32 ((y.take 64).sum * ((toyPub x).drop 1).sum % 256)
    rw [toyPub_drop_sum, toyPub_drop_sum, Nat.mul_comm]
  · intro k iv m; simp [toyC]
  · intro k iv m
    simp [toyC, List.take_append_eq_append_take]

example : base64UrlToUint8Array "AAAAAAAAAAAAAAAAAAAAAA" = some (List.replicate 16 0) := by decide
example : base64UrlToUint8Array "ab=" = some [105] := by decide
example : base64UrlToUint8Array "a!" = none := by decide
example : uint8ArrayToBase64Url [4, 0, 0] = "BAAA" := by decide
example : base64UrlToUint8Array (uint8ArrayToBase64Url [104, 105, 2]) = some [104, 105, 2] := by decide
example : utf8Encode "hi" = [104, 105] := by decide
example : base64UrlToUint8Array pkStr = some (toyPub []) := by decide
example : base64UrlToUint8Array authStr = some (List.replicate 16 0) := by decide
example : toyC.validPub (toyPub []) = true := by decide

/-- Reduction of encryptPayload when both key strings decode and the
recipient public key imports: the emitted record, with the IKM, CEK and
nonce derivations spelled out. -/
theorem encryptPayload_eq (C : CryptoProvider) (ephPriv salt : List Nat)
    (P pk auth : String) (pkB asB : List Nat)
    (hpk : base64UrlToUint8Array pk = some pkB)
    (hauth : base64UrlToUint8Array auth = some asB)
    (hvalid : C.validPub pkB = true) :
    encryptPayload C ephPriv salt P pk auth =
      some (salt ++ (be32 recordSize ++ ([(C.pubOf ephPriv).length % 256]
        ++ (C.pubOf ephPriv
        ++ C.aesGcmEnc
          (C.hkdf (C.hkdf (C.ecdh ephPriv pkB) asB
              (utf8Encode "WebPush: info" ++ [0] ++ pkB ++ C.pubOf ephPriv) 32)
            salt cekInfoBytes 16)
          (C.hkdf (C.hkdf (C.ecdh ephPriv pkB) asB
              (utf8Encode "WebPush: info" ++ [0] ++ pkB ++ C.pubOf ephPriv) 32)
            salt nonceInfoBytes 12)
          (utf8Encode P ++ [2]))))) := by
  simp [encryptPayload, hpk, hauth, hvalid]

/-- Where the pieces of an emitted aes128gcm record sit. -/
theorem recordParts (salt pub ct : List Nat)
    (hsalt : salt.length = 16) (hpub : pub.length = 65) :
    (salt ++ (be32 recordSize ++ ([pub.length % 256] ++ (pub ++ ct)))).take 16 = salt
    ∧ (salt ++ (be32 recordSize ++ ([pub.length % 256] ++ (pub ++ ct)))).drop 16
        = be32 recordSize ++ ([pub.length % 256] ++ (pub ++ ct))
    ∧ (salt ++ (be32 recordSize ++ ([pub.length % 256] ++ (pub ++ ct)))).drop 20
        = [65] ++ (pub ++ ct)
    ∧ (salt ++ (be32 recordSize ++ ([pub.length % 256] ++ (pub ++ ct)))).drop 21
        = pub ++ ct
    ∧ (salt ++ (be32 recordSize ++ ([pub.length % 256] ++ (pub ++ ct)))).drop 86
        = ct
    ∧ (salt ++ (be32 recordSize ++ ([pub.length % 256] ++ (pub ++ ct)))).length
        = 86 + ct.length := by
  have h16 : (salt ++ (be32 recordSize ++ ([pub.length % 256] ++ (pub ++ ct)))).take 16
      = salt := List.take_left' hsalt
  have hd16 : (salt ++ (be32 recordSize ++ ([pub.length % 256] ++ (pub ++ ct)))).drop 16
      = be32 recordSize ++ ([pub.length % 256] ++ (pub ++ ct)) := List.drop_left' hsalt
  have hd4 : (be32 recordSize ++ ([pub.length % 256] ++ (pub ++ ct))).drop 4
      = [pub.length % 256] ++ (pub ++ ct) :=
    List.drop_left' (show (be32 recordSize).length = 4 by decide)
  have hd20 : (salt ++ (be32 recordSize ++ ([pub.length % 256] ++ (pub ++ ct)))).drop 20
      = [65] ++ (pub ++ ct) := by
    rw [show (20 : Nat) = 16 + 4 from rfl, ← List.drop_drop, hd16, hd4, hpub]
  have hd21 : (salt ++ (be32 recordSize ++ ([pub.length % 256] ++ (pub ++ ct)))).drop 21
      = pub ++ ct := by
    rw [show (21 : Nat) = 20 + 1 from rfl, ← List.drop_drop, hd20]
    rfl
  have hd86 : (salt ++ (be32 recordSize ++ ([pub.length % 256] ++ (pub ++ ct)))).drop 86
      = ct := by
    rw [show (86 : Nat) = 21 + 65 from rfl, ← List.drop_drop, hd21, List.drop_left' hpub]
  refine ⟨h16, hd16, hd20, hd21, hd86, ?_⟩
  simp [List.length_append, hsalt, hpub, be32]
  omega

/-- RFC 8291 unpadding undoes the single 0x02 delimiter appended by the
encryptor. -/
theorem stripPad_append_two (l : List Nat) : stripPad (l ++ [2]) = some l := by
  simp [stripPad, List.dropWhile_cons]

/-- C1: for every plaintext string and every valid recipient key pair
(the stored p256dh decodes to the public key of the recipient's private
key and imports as a P-256 point, the stored auth secret decodes to 16
bytes), the reference RFC 8291 aes128gcm decryption under the recipient
private key and auth secret recovers exactly the UTF-8 bytes of the
plaintext from the record produced by encryptPayload. -/
theorem encryptPayload_decrypt_roundtrip (C : CryptoProvider) (hC : CryptoOk C)
    (ephPriv recipPriv salt : List Nat) (P pk auth : String) (asB : List Nat)
    (hsalt : salt.length = 16)
    (hpk : base64UrlToUint8Array pk = some (C.pubOf recipPriv))
    (hvalid : C.validPub (C.pubOf recipPriv) = true)
    (hauth : base64UrlToUint8Array auth = some asB)
    (_halen : asB.length = 16) :
    (encryptPayload C ephPriv salt P pk auth).bind
      (fun record => decryptRecord C recipPriv asB record)
      = some (utf8Encode P) := by
  rw [encryptPayload_eq C ephPriv salt P pk auth (C.pubOf recipPriv) asB hpk hauth hvalid,
    Option.some_bind]
  have hpl : (C.pubOf ephPriv).length = 65 := hC.pub_len ephPriv
  set ikm := C.hkdf (C.ecdh ephPriv (C.pubOf recipPriv)) asB
    (utf8Encode "WebPush: info" ++ [0] ++ C.pubOf recipPriv ++ C.pubOf ephPriv) 32 with hikm
  set cek := C.hkdf ikm salt cekInfoBytes 16 with hcek
  set nonce := C.hkdf ikm salt nonceInfoBytes 12 with hnonce
  set ct := C.aesGcmEnc cek nonce (utf8Encode P ++ [2]) with hct
  have hctlen : ct.length = (utf8Encode P ++ [2]).length + 16 := by
    rw [hct]; exact hC.gcm_len _ _ _
  obtain ⟨h16, hd16, hd20, hd21, hd86, hlen⟩ :=
    recordParts salt (C.pubOf ephPriv) ct hsalt hpl
  simp only [decryptRecord]
  simp only [List.cons_append, List.nil_append] at h16 hd16 hd20 hd21 hd86 hlen ⊢
  rw [hd20]
  simp only [List.headD_cons]
  rw [hd21, List.take_left' hpl]
  rw [if_neg (by rw [hlen]; omega)]
  rw [show (21 + 65 : Nat) = 86 from rfl, hd86, h16]
  rw [hC.ecdh_comm recipPriv ephPriv, ← hikm, ← hcek, ← hnonce, hct, hC.gcm_dec]
  exact stripPad_append_two _

/-- C1 witness: concrete round trip through the toy provider. -/
theorem encryptPayload_decrypt_roundtrip_witness :
    (encryptPayload toyC [1] salt16 "hi" pkStr authStr).bind
      (fun record => decryptRecord toyC [] (List.replicate 16 0) record)
      = some (utf8Encode "hi") :=
  encryptPayload_decrypt_roundtrip toyC toyC_ok [1] [] salt16 "hi" pkStr authStr
    (List.replicate 16 0) (by decide) (by decide) (by decide) (by decide) (by decide)

/-- C2: for every payload and valid recipient key material, the record
is 16 + 4 + 1 + 65 + len(utf8 payload) + 1 + 16 bytes long; bytes 16..19
hold the big-endian encoding of 4096 regardless of the payload; byte 20
is 65; bytes 21..85 are the ephemeral public key, a 65-byte uncompressed
point starting with 0x04. -/
theorem encryptPayload_record_format (C : CryptoProvider) (hC : CryptoOk C)
    (ephPriv salt : List Nat) (P pk auth : String) (pkB asB rec : List Nat)
    (hsalt : salt.length = 16)
    (hpk : base64UrlToUint8Array pk = some pkB)
    (hauth : base64UrlToUint8Array auth = some asB)
    (hvalid : C.validPub pkB = true)
    (hrec : encryptPayload C ephPriv salt P pk auth = some rec) :
    rec.length = 16 + 4 + 1 + 65 + (utf8Encode P).length + 1 + 16
      ∧ listSlice rec 16 20 = be32 4096
      ∧ listSlice rec 20 21 = [65]
      ∧ listSlice rec 21 86 = C.pubOf ephPriv
      ∧ (C.pubOf ephPriv).headD 0 = 4 := by
  rw [encryptPayload_eq C ephPriv salt P pk auth pkB asB hpk hauth hvalid] at hrec
  obtain rfl := Option.some.inj hrec
  have hpl : (C.pubOf ephPriv).length = 65 := hC.pub_len ephPriv
  set ikm := C.hkdf (C.ecdh ephPriv pkB) asB
    (utf8Encode "WebPush: info" ++ [0] ++ pkB ++ C.pubOf ephPriv) 32 with hikm
  set ct := C.aesGcmEnc (C.hkdf ikm salt cekInfoBytes 16)
    (C.hkdf ikm salt nonceInfoBytes 12) (utf8Encode P ++ [2]) with hct
  have hctlen : ct.length = (utf8Encode P ++ [2]).length + 16 := by
    rw [hct]; exact hC.gcm_len _ _ _
  obtain ⟨h16, hd16, hd20, hd21, hd86, hlen⟩ :=
    recordParts salt (C.pubOf ephPriv) ct hsalt hpl
  refine ⟨?_, ?_, ?_, ?_, hC.pub_head ephPriv⟩
  · rw [hlen]
    have h2 : (utf8Encode P ++ [2]).length = (utf8Encode P).length + 1 := by simp
    omega
  · simp only [listSlice]
    rw [show (20 - 16 : Nat) = 4 from rfl, hd16,
      List.take_left' (show (be32 recordSize).length = 4 by decide)]
    rfl
  · simp only [listSlice]
    rw [show (21 - 20 : Nat) = 1 from rfl, hd20]
    rfl
  · simp only [listSlice]
    rw [show (86 - 21 : Nat) = 65 from rfl, hd21, List.take_left' hpl]

theorem encryptPayload_record_format_witness :
    recC2.length = 16 + 4 + 1 + 65 + (utf8Encode "hi").length + 1 + 16
      ∧ listSlice recC2 16 20 = be32 4096
      ∧ listSlice recC2 20 21 = [65]
      ∧ listSlice recC2 21 86 = toyC.pubOf []
      ∧ (toyC.pubOf []).headD 0 = 4 :=
  encryptPayload_record_format toyC toyC_ok [] salt16 "hi" pkStr authStr
    (4 :: List.replicate 64 0) (List.replicate 16 0) recC2
    (by decide) (by decide) (by decide) (by decide) (by decide)

/-- C3: when the recipient key material decodes, encryptPayload derives
its intermediate key material exactly as the spec states it — HKDF-SHA256
keyed by the ECDH shared secret, salted with the decoded auth secret,
with an info string holding the protocol label and both public keys —
and the emitted ciphertext is the AES-GCM encryption under the CEK and
nonce expanded from that IKM. -/
theorem encryptPayload_ikm_derivation (C : CryptoProvider)
    (ephPriv salt : List Nat) (P pk auth : String) (pkB asB : List Nat)
    (hpk : base64UrlToUint8Array pk = some pkB)
    (hauth : base64UrlToUint8Array auth = some asB)
    (hvalid : C.validPub pkB = true) :
    encryptPayload C ephPriv salt P pk auth =
      some (salt ++ (be32 recordSize ++ ([(C.pubOf ephPriv).length % 256]
        ++ (C.pubOf ephPriv
        ++ C.aesGcmEnc
          (C.hkdf (ikmSpec C (C.ecdh ephPriv pkB) asB pkB (C.pubOf ephPriv))
            salt cekInfoBytes 16)
          (C.hkdf (ikmSpec C (C.ecdh ephPriv pkB) asB pkB (C.pubOf ephPriv))
            salt nonceInfoBytes 12)
          (utf8Encode P ++ [2]))))) := by
  rw [encryptPayload_eq C ephPriv salt P pk auth pkB asB hpk hauth hvalid]
  rfl

/-- C3 witness: the derivation at concrete toy-provider inputs. -/
theorem encryptPayload_ikm_derivation_witness :
    encryptPayload toyC [] salt16 "hi" pkStr authStr =
      some (salt16 ++ (be32 recordSize ++ ([(toyC.pubOf []).length % 256]
        ++ (toyC.pubOf []
        ++ toyC.aesGcmEnc
          (toyC.hkdf (ikmSpec toyC (toyC.ecdh [] (4 :: List.replicate 64 0))
              (List.replicate 16 0) (4 :: List.replicate 64 0) (toyC.pubOf []))
            salt16 cekInfoBytes 16)
          (toyC.hkdf (ikmSpec toyC (toyC.ecdh [] (4 :: List.replicate 64 0))
              (List.replicate 16 0) (4 :: List.replicate 64 0) (toyC.pubOf []))
            salt16 nonceInfoBytes 12)
          (utf8Encode "hi" ++ [2]))))) :=
  encryptPayload_ikm_derivation toyC [] salt16 "hi" pkStr authStr
    (4 :: List.replicate 64 0) (List.replicate 16 0) (by decide) (by decide) (by decide)

/-- Inversion for a delivery task that reports its endpoint expired:
the reported endpoint is the subscription's own, and its delivery
response status was 410 or 404. -/
theorem deliverOne_some (C : CryptoProvider) (payload subject vapidPub vapidPriv : String)
    (nowMs : Nat) (fetchStatus : String → Option Nat) (rnd2 : List Nat × List Nat)
    (sub : SubRow) (e : String)
    (h : deliverOne C payload subject vapidPub vapidPriv nowMs fetchStatus rnd2 sub = some e) :
    e = sub.endpoint ∧ ∃ st, fetchStatus sub.endpoint = some st ∧ (st = 410 ∨ st = 404) := by
  simp only [deliverOne] at h
  cases henc : encryptPayload C rnd2.1 rnd2.2 payload sub.p256dh sub.auth with
  | none => simp [henc] at h
  | some enc =>
    simp only [henc] at h
    cases hvap : createVapidAuthHeader C sub.endpoint subject vapidPub vapidPriv nowMs with
    | none => simp [hvap] at h
    | some vh =>
      simp only [hvap] at h
      cases hf : fetchStatus sub.endpoint with
      | none => simp [hf] at h
      | some st =>
        simp only [hf] at h
        by_cases hst : (st == 410 || st == 404) = true
        · rw [if_pos hst] at h
          have hst2 : st = 410 ∨ st = 404 := by simpa using hst
          exact ⟨(Option.some.inj h).symm, st, rfl, hst2⟩
        · rw [if_neg hst] at h
          simp at h

/-- A failure at any of the three failure points of a recipient's
pipeline makes its task report nothing (the try/catch swallows it). -/
theorem deliverOne_none_of_fail (C : CryptoProvider)
    (payload subject vapidPub vapidPriv : String) (nowMs : Nat)
    (fetchStatus : String → Option Nat) (rnd2 : List Nat × List Nat) (sub : SubRow)
    (h : encryptPayload C rnd2.1 rnd2.2 payload sub.p256dh sub.auth = none
      ∨ createVapidAuthHeader C sub.endpoint subject vapidPub vapidPriv nowMs = none
      ∨ fetchStatus sub.endpoint = none) :
    deliverOne C payload subject vapidPub vapidPriv nowMs fetchStatus rnd2 sub = none := by
  rcases h with h | h | h
  · simp [deliverOne, h]
  · cases henc : encryptPayload C rnd2.1 rnd2.2 payload sub.p256dh sub.auth with
    | none => simp [deliverOne, henc]
    | some enc => simp [deliverOne, henc, h]
  · cases henc : encryptPayload C rnd2.1 rnd2.2 payload sub.p256dh sub.auth with
    | none => simp [deliverOne, henc]
    | some enc =>
      cases hvap : createVapidAuthHeader C sub.endpoint subject vapidPub vapidPriv nowMs with
      | none => simp [deliverOne, henc, hvap]
      | some vh => simp [deliverOne, henc, hvap, h]

/-- The fan-out processes a concatenation of recipient lists
independently, the right part starting at the shifted task index. -/
theorem runDeliveries_append (C : CryptoProvider)
    (payload subject vapidPub vapidPriv : String) (nowMs : Nat)
    (fetchStatus : String → Option Nat) (rnd : Nat → List Nat × List Nat)
    (i : Nat) (l1 l2 : List SubRow) :
    runDeliveries C payload subject vapidPub vapidPriv nowMs fetchStatus rnd i (l1 ++ l2)
      = runDeliveries C payload subject vapidPub vapidPriv nowMs fetchStatus rnd i l1
        ++ runDeliveries C payload subject vapidPub vapidPriv nowMs fetchStatus rnd
            (i + l1.length) l2 := by
  induction l1 generalizing i with
  | nil => simp [runDeliveries]
  | cons a t ih =>
    simp only [List.cons_append, runDeliveries]
    have harith : i + 1 + t.length = i + (t.length + 1) := by omega
    cases hd : deliverOne C payload subject vapidPub vapidPriv nowMs fetchStatus (rnd i) a <;>
      simp [ih, List.length_cons, harith]

/-- C4: a dispatch cycle over exactly three subscriptions whose delivery
requests come back 200, 410 and 500 issues exactly one deactivation —
for the endpoint that answered 410 — and completes normally despite the
500. -/
theorem handleScheduled_mixed_statuses (C : CryptoProvider)
    (payload subject vapidPub vapidPriv : String) (nowMs : Nat)
    (fetchStatus : String → Option Nat) (rnd : Nat → List Nat × List Nat)
    (s1 s2 s3 : SubRow)
    (henc1 : (encryptPayload C (rnd 0).1 (rnd 0).2 payload s1.p256dh s1.auth).isSome = true)
    (henc2 : (encryptPayload C (rnd 1).1 (rnd 1).2 payload s2.p256dh s2.auth).isSome = true)
    (henc3 : (encryptPayload C (rnd 2).1 (rnd 2).2 payload s3.p256dh s3.auth).isSome = true)
    (hvap1 : (createVapidAuthHeader C s1.endpoint subject vapidPub vapidPriv nowMs).isSome = true)
    (hvap2 : (createVapidAuthHeader C s2.endpoint subject vapidPub vapidPriv nowMs).isSome = true)
    (hvap3 : (createVapidAuthHeader C s3.endpoint subject vapidPub vapidPriv nowMs).isSome = true)
    (hf1 : fetchStatus s1.endpoint = some 200)
    (hf2 : fetchStatus s2.endpoint = some 410)
    (hf3 : fetchStatus s3.endpoint = some 500) :
    handleScheduled C payload subject vapidPub vapidPriv nowMs fetchStatus rnd true
      (some [s1, s2, s3]) = some [s2.endpoint] := by
  obtain ⟨e1, he1⟩ := Option.isSome_iff_exists.mp henc1
  obtain ⟨e2, he2⟩ := Option.isSome_iff_exists.mp henc2
  obtain ⟨e3, he3⟩ := Option.isSome_iff_exists.mp henc3
  obtain ⟨v1, hv1⟩ := Option.isSome_iff_exists.mp hvap1
  obtain ⟨v2, hv2⟩ := Option.isSome_iff_exists.mp hvap2
  obtain ⟨v3, hv3⟩ := Option.isSome_iff_exists.mp hvap3
  simp [handleScheduled, runDeliveries, deliverOne,
    he1, he2, he3, hv1, hv2, hv3, hf1, hf2, hf3]

/-- C4 witness: the three-subscription cycle through the toy provider. -/
theorem handleScheduled_mixed_statuses_witness :
    handleScheduled toyC "hi" "mailto:hi@example.com" pkStr "k" 1700000000000 fetchW rndW true
      (some [subA, subB, subD]) = some ["https://push.test/b"] :=
  handleScheduled_mixed_statuses toyC "hi" "mailto:hi@example.com" pkStr "k" 1700000000000
    fetchW rndW subA subB subD
    (by decide) (by decide) (by decide) (by decide) (by decide) (by decide)
    (by decide) (by decide) (by decide)

/-- C5: a failure raised inside one recipient's pipeline — payload
encryption, VAPID header construction, or the delivery request — is
caught at that task's boundary: the cycle still completes normally and
the remaining subscriptions' outcomes are exactly those of their own
deliveries. -/
theorem handleScheduled_recipient_isolation (C : CryptoProvider)
    (payload subject vapidPub vapidPriv : String) (nowMs : Nat)
    (fetchStatus : String → Option Nat) (rnd : Nat → List Nat × List Nat)
    (pre post : List SubRow) (sub : SubRow)
    (hfail : encryptPayload C (rnd pre.length).1 (rnd pre.length).2 payload
        sub.p256dh sub.auth = none
      ∨ createVapidAuthHeader C sub.endpoint subject vapidPub vapidPriv nowMs = none
      ∨ fetchStatus sub.endpoint = none) :
    handleScheduled C payload subject vapidPub vapidPriv nowMs fetchStatus rnd true
        (some (pre ++ sub :: post))
      = some (runDeliveries C payload subject vapidPub vapidPriv nowMs fetchStatus rnd 0 pre
          ++ runDeliveries C payload subject vapidPub vapidPriv nowMs fetchStatus rnd
              (pre.length + 1) post) := by
  have hnone := deliverOne_none_of_fail C payload subject vapidPub vapidPriv nowMs
    fetchStatus (rnd pre.length) sub hfail
  have hne : (pre ++ sub :: post).isEmpty = false := by cases pre <;> simp
  simp only [handleScheduled, hne, Bool.false_eq_true, if_false]
  rw [if_neg (by simp)]
  rw [runDeliveries_append]
  simp only [Nat.zero_add, runDeliveries, hnone]

/-- C5 witness: a middle subscription with undecodable key material does
not disturb its siblings, whose deliveries complete either side of it. -/
theorem handleScheduled_recipient_isolation_witness :
    handleScheduled toyC "hi" "mailto:hi@example.com" pkStr "k" 1700000000000 fetchW rndW true
        (some ([subA] ++ subBad :: [subD]))
      = some (runDeliveries toyC "hi" "mailto:hi@example.com" pkStr "k" 1700000000000
            fetchW rndW 0 [subA]
          ++ runDeliveries toyC "hi" "mailto:hi@example.com" pkStr "k" 1700000000000
            fetchW rndW 2 [subD]) :=
  handleScheduled_recipient_isolation toyC "hi" "mailto:hi@example.com" pkStr "k"
    1700000000000 fetchW rndW [subA] [subD] subBad (Or.inl (by decide))

/-- Every endpoint the fan-out collects got a delivery response with
status 410 or 404. -/
theorem runDeliveries_mem (C : CryptoProvider)
    (payload subject vapidPub vapidPriv : String) (nowMs : Nat)
    (fetchStatus : String → Option Nat) (rnd : Nat → List Nat × List Nat)
    (subs : List SubRow) (i : Nat) (e : String)
    (h : e ∈ runDeliveries C payload subject vapidPub vapidPriv nowMs fetchStatus rnd i subs) :
    ∃ st, fetchStatus e = some st ∧ (st = 410 ∨ st = 404) := by
  induction subs generalizing i with
  | nil => simp [runDeliveries] at h
  | cons a t ih =>
    simp only [runDeliveries] at h
    cases hd : deliverOne C payload subject vapidPub vapidPriv nowMs fetchStatus (rnd i) a with
    | none =>
      rw [hd] at h
      exact ih (i + 1) h
    | some e2 =>
      rw [hd] at h
      rcases List.mem_cons.mp h with h1 | h2
      · obtain ⟨heq, st, hst, hor⟩ :=
          deliverOne_some C payload subject vapidPub vapidPriv nowMs fetchStatus (rnd i) a e2 hd
        refine ⟨st, ?_, hor⟩
        rw [h1, heq]
        exact hst
      · exact ih (i + 1) h2

/-- C6: throughout a dispatch cycle, a deactivation (UPDATE ... SET
active = 0) is issued for an endpoint only when the delivery response
for that endpoint had status 410 or 404; no failure of decoding,
encryption, signing or transport, and no other status, ever causes one. -/
theorem handleScheduled_deactivate_only_gone (C : CryptoProvider)
    (payload subject vapidPub vapidPriv : String) (nowMs : Nat)
    (fetchStatus : String → Option Nat) (rnd : Nat → List Nat × List Nat)
    (dbAvailable : Bool) (query : Option (List SubRow)) (out : List String) (e : String)
    (hrun : handleScheduled C payload subject vapidPub vapidPriv nowMs fetchStatus rnd
        dbAvailable query = some out)
    (he : e ∈ out) :
    ∃ st, fetchStatus e = some st ∧ (st = 410 ∨ st = 404) := by
  simp only [handleScheduled] at hrun
  by_cases hdb : dbAvailable = false
  · rw [if_pos hdb] at hrun
    obtain rfl := Option.some.inj hrun
    simp at he
  · rw [if_neg hdb] at hrun
    cases query with
    | none => simp at hrun
    | some results =>
      simp only [] at hrun
      by_cases hemp : results.isEmpty
      · rw [if_pos hemp] at hrun
        obtain rfl := Option.some.inj hrun
        simp at he
      · rw [if_neg hemp] at hrun
        obtain rfl := Option.some.inj hrun
        exact runDeliveries_mem C payload subject vapidPub vapidPriv nowMs fetchStatus rnd
          results 0 e he

/-- C6 witness: the one deactivated endpoint of the mixed-status cycle
indeed answered 410. -/
theorem handleScheduled_deactivate_only_gone_witness :
    ∃ st, fetchW "https://push.test/b" = some st ∧ (st = 410 ∨ st = 404) :=
  handleScheduled_deactivate_only_gone toyC "hi" "mailto:hi@example.com" pkStr "k"
    1700000000000 fetchW rndW true (some [subA, subB, subD]) ["https://push.test/b"]
    "https://push.test/b" (by decide) (by decide)

/-- A character other than '=' survives the trailing-pad strip. -/
theorem mem_dropLast_of_ne (l : List Char) (c a : Char)
    (h : c ∈ l) (hl : l.getLast? = some a) (hne : c ≠ a) : c ∈ l.dropLast := by
  have hnil : l ≠ [] := by rintro rfl; simp at hl
  have hg : l.getLast hnil = a := by
    have h2 := List.getLast?_eq_getLast l hnil
    rw [h2] at hl
    exact Option.some.inj hl
  have hsplit := List.dropLast_append_getLast hnil
  rw [← hsplit] at h
  rcases List.mem_append.mp h with h1 | h1
  · exact h1
  · simp only [List.mem_singleton] at h1
    rw [h1, hg] at hne
    exact absurd rfl hne

theorem mem_stripTrailingPad (l : List Char) (c : Char) (hc : c ≠ '=') (h : c ∈ l) :
    c ∈ stripTrailingPad l := by
  unfold stripTrailingPad
  split
  · rename_i h1
    have h2 : c ∈ l.dropLast := mem_dropLast_of_ne l c '=' h h1 hc
    show c ∈ if l.dropLast.getLast? = some '=' then l.dropLast.dropLast else l.dropLast
    split
    · rename_i h3
      exact mem_dropLast_of_ne l.dropLast c '=' h2 h3 hc
    · exact h2
  · exact h

/-- atob throws whenever a character that is not base64, '=' or ASCII
whitespace appears anywhere in its input. -/
theorem atobList_invalid (input : List Char) (c : Char) (hmem : c ∈ input)
    (hws : isAsciiWs c = false) (heq : c ≠ '=') (hcon : b64Alphabet.contains c = false) :
    atobList input = none := by
  simp only [atobList]
  have h1 : c ∈ input.filter (fun c => !(isAsciiWs c)) :=
    List.mem_filter.mpr ⟨hmem, by simp [hws]⟩
  set ws := input.filter (fun c => !(isAsciiWs c)) with hwsdef
  have h2 : c ∈ (if ws.length % 4 == 0 then stripTrailingPad ws else ws) := by
    split
    · exact mem_stripTrailingPad ws c heq h1
    · exact h1
  set data := (if ws.length % 4 == 0 then stripTrailingPad ws else ws) with hdatadef
  by_cases h3 : (data.length % 4 == 1) = true
  · rw [if_pos h3]
  · rw [if_neg h3]
    have h4 : data.any (fun c => !(b64Alphabet.contains c)) = true :=
      List.any_eq_true.mpr ⟨c, h2, by simp only [hcon, Bool.not_false]⟩
    rw [if_pos h4]

theorem b64url_repl_not_ws : ∀ c ∈ b64UrlAlphabet, isAsciiWs (b64Repl c) = false := by
  decide

theorem b64url_char_small : ∀ c ∈ b64UrlAlphabet, c.toNat < 65536 := by
  decide

theorem foldl_utf16_aux (l : List Char) (h : ∀ c ∈ l, c.toNat < 65536) :
    ∀ a : Nat, l.foldl (fun n c => n + if 65536 ≤ c.toNat then 2 else 1) a = a + l.length := by
  induction l with
  | nil => intro a; simp
  | cons x t ih =>
    intro a
    have hx : ¬ (65536 ≤ x.toNat) := by
      have := h x (by simp)
      omega
    simp only [List.foldl_cons, if_neg hx, List.length_cons]
    rw [ih (fun c hc => h c (by simp [hc])) (a + 1)]
    omega

theorem stripTrailingPad_three (l : List Char) :
    stripTrailingPad (l ++ ['=', '=', '=']) = l ++ ['='] := by
  unfold stripTrailingPad
  rw [show (l ++ ['=', '=', '='] : List Char) = (l ++ ['=', '=']) ++ ['='] by simp]
  rw [if_pos (by simp)]
  simp only [List.dropLast_concat]
  rw [show (l ++ ['=', '='] : List Char) = (l ++ ['=']) ++ ['='] by simp]
  rw [if_pos (by simp)]
  simp only [List.dropLast_concat]

/-- C9 amended: the decoder fails on every input holding a character
outside base64, base64url, '=' and ASCII whitespace, and on every
alphabet-only input whose length is 1 mod 4 (unrepresentable padding);
but — unlike the claim — characters such as '=', '+', '/' or spaces can
be silently accepted. -/
theorem base64UrlToUint8Array_amended :
    (∀ (s : String) (c : Char), c ∈ s.data → b64LenientAllowed c = false →
        base64UrlToUint8Array s = none)
    ∧ (∀ s : String, (∀ c ∈ s.data, isBase64UrlAlphabet c = true) →
        utf16Len s % 4 = 1 → base64UrlToUint8Array s = none) := by
  constructor
  · intro s c hmem hc
    simp only [b64LenientAllowed, Bool.or_eq_false_iff] at hc
    obtain ⟨⟨⟨⟨hcon, hdash⟩, hus⟩, heqc⟩, hws⟩ := hc
    have hne : c ≠ '=' := by simpa using heqc
    have hrepl : b64Repl c = c := by simp [b64Repl, hdash, hus]
    simp only [base64UrlToUint8Array]
    refine atobList_invalid _ c ?_ hws hne hcon
    exact List.mem_append_left _ (List.mem_map.mpr ⟨c, hmem, hrepl⟩)
  · intro s hall hlen
    have hall2 : ∀ c ∈ s.data, c ∈ b64UrlAlphabet := by
      intro c hc
      have := hall c hc
      simpa [isBase64UrlAlphabet] using this
    have hsmall : ∀ c ∈ s.data, c.toNat < 65536 :=
      fun c hc => b64url_char_small c (hall2 c hc)
    have hulen : utf16Len s = s.data.length := by
      unfold utf16Len
      rw [foldl_utf16_aux s.data hsmall 0]
      omega
    have hlen2 : s.data.length % 4 = 1 := by rw [← hulen]; exact hlen
    simp only [base64UrlToUint8Array]
    rw [hlen, show ((4 - 1) % 4 : Nat) = 3 from rfl,
      show List.replicate 3 '=' = ['=', '=', '='] from rfl]
    simp only [atobList]
    have hfilter : (s.data.map b64Repl ++ ['=', '=', '=']).filter
        (fun c => !(isAsciiWs c)) = s.data.map b64Repl ++ ['=', '=', '='] := by
      refine List.filter_eq_self.mpr ?_
      intro a ha
      rcases List.mem_append.mp ha with h1 | h1
      · obtain ⟨c0, hc0, rfl⟩ := List.mem_map.mp h1
        simp [b64url_repl_not_ws c0 (hall2 c0 hc0)]
      · have : a = '=' := by simpa using h1
        subst this
        decide
    rw [hfilter]
    have hmod : ((s.data.map b64Repl ++ ['=', '=', '=']).length % 4 == 0) = true := by
      simp only [List.length_append, List.length_map, List.length_cons,
        List.length_nil, beq_iff_eq]
      omega
    rw [if_pos hmod, stripTrailingPad_three]
    have hmod2 : ¬ (((s.data.map b64Repl ++ ['=']).length % 4 == 1) = true) := by
      simp only [List.length_append, List.length_map, List.length_cons,
        List.length_nil, beq_iff_eq]
      omega
    rw [if_neg hmod2]
    have hany : (s.data.map b64Repl ++ ['=']).any
        (fun c => !(b64Alphabet.contains c)) = true :=
      List.any_eq_true.mpr ⟨'=', by simp, by decide⟩
    rw [if_pos hany]

/-- C9 counterexample: "ab=" contains '=', a character outside the
base64url alphabet, yet base64UrlToUint8Array silently returns a byte
for it (the padding logic turns it into valid base64 "ab=="). -/
theorem base64UrlToUint8Array_counterexample :
    ('=' ∈ "ab=".data ∧ isBase64UrlAlphabet '=' = false)
      ∧ base64UrlToUint8Array "ab=" = some [105] := by decide

/-- C9 witness: an input with a character no reading tolerates fails. -/
theorem base64UrlToUint8Array_amended_witness :
    base64UrlToUint8Array "a!" = none :=
  base64UrlToUint8Array_amended.1 "a!" '!' (by decide) (by decide)

/-- C7 counterexample: an auth secret that decodes to a single byte
(not 16) is not rejected — encryptPayload feeds it to HKDF as-is and
succeeds, contrary to the claim that a wrong-length auth secret fails. -/
theorem encryptPayload_malformed_counterexample :
    (base64UrlToUint8Array "AA" = some [0] ∧ ([0] : List Nat).length ≠ 16)
      ∧ (encryptPayload toyC [] salt16 "hi" pkStr "AA").isSome = true := by decide

/-- C7 amended: encryptPayload fails whenever the stored public key or
auth secret cannot be base64url-decoded, or the public key decodes to
something other than a 65-byte point (so its import fails); the failure
is recipient-scoped — a batch around such a recipient still completes
with the other recipients' outcomes untouched.  (A wrong-length auth
secret that does decode is accepted, per the counterexample.) -/
theorem encryptPayload_malformed_amended (C : CryptoProvider) (ephPriv salt : List Nat)
    (hvl : ∀ p, C.validPub p = true → p.length = 65) :
    (∀ P pk auth, base64UrlToUint8Array pk = none →
        encryptPayload C ephPriv salt P pk auth = none)
    ∧ (∀ P pk auth, base64UrlToUint8Array auth = none →
        encryptPayload C ephPriv salt P pk auth = none)
    ∧ (∀ P pk auth pkB, base64UrlToUint8Array pk = some pkB → pkB.length ≠ 65 →
        encryptPayload C ephPriv salt P pk auth = none)
    ∧ (∀ payload subject vapidPub vapidPriv nowMs fetchStatus rnd
        (pre post : List SubRow) (sub : SubRow),
        base64UrlToUint8Array sub.p256dh = none →
        handleScheduled C payload subject vapidPub vapidPriv nowMs fetchStatus rnd true
            (some (pre ++ sub :: post))
          = some (runDeliveries C payload subject vapidPub vapidPriv nowMs fetchStatus rnd
                0 pre
              ++ runDeliveries C payload subject vapidPub vapidPriv nowMs fetchStatus rnd
                (pre.length + 1) post)) := by
  have hfail : ∀ (ephPriv2 salt2 : List Nat) (P pk auth : String),
      base64UrlToUint8Array pk = none → encryptPayload C ephPriv2 salt2 P pk auth = none := by
    intro ephPriv2 salt2 P pk auth h
    simp [encryptPayload, h]
  refine ⟨fun P pk auth h => hfail ephPriv salt P pk auth h, ?_, ?_, ?_⟩
  · intro P pk auth h
    cases hdec : base64UrlToUint8Array pk with
    | none => simp [encryptPayload, hdec]
    | some pkB => simp [encryptPayload, hdec, h]
  · intro P pk auth pkB hdec hlen
    cases hdec2 : base64UrlToUint8Array auth with
    | none => simp [encryptPayload, hdec, hdec2]
    | some asB =>
      have hv : C.validPub pkB = false := by
        by_contra hv2
        exact hlen (hvl pkB (by simpa using hv2))
      simp [encryptPayload, hdec, hdec2, hv]
  · intro payload subject vapidPub vapidPriv nowMs fetchStatus rnd pre post sub h
    have hnone := deliverOne_none_of_fail C payload subject vapidPub vapidPriv nowMs
      fetchStatus (rnd pre.length) sub
      (Or.inl (hfail (rnd pre.length).1 (rnd pre.length).2 payload sub.p256dh sub.auth h))
    have hne : (pre ++ sub :: post).isEmpty = false := by cases pre <;> simp
    simp only [handleScheduled, hne, Bool.false_eq_true, if_false]
    rw [if_neg (by simp)]
    rw [runDeliveries_append]
    simp only [Nat.zero_add, runDeliveries, hnone]

/-- C7 witness: an undecodable stored public key fails the encryption. -/
theorem encryptPayload_malformed_amended_witness :
    encryptPayload toyC [] salt16 "hi" "!!" authStr = none :=
  (encryptPayload_malformed_amended toyC [] salt16 toyC_ok.valid_len).1
    "hi" "!!" authStr (by decide)

theorem string_append_left_cancel (a b c : String) (h : a ++ b = a ++ c) : b = c := by
  have hd : a.data ++ b.data = a.data ++ c.data := by
    have h2 := congrArg String.data h
    simpa using h2
  have hbc := List.append_cancel_left hd
  cases b; cases c
  exact congrArg String.mk hbc

/-- C8: createVapidAuthHeader signs a JWT whose aud claim is the scheme
and host of the endpoint (so endpoints on different hosts get different
aud claims) and whose exp claim is the wall-clock time of the call plus
12 hours, and it returns an Authorization value carrying the token and
the public key and a Crypto-Key value carrying the public key alone. -/
theorem createVapidAuthHeader_claims (C : CryptoProvider)
    (endpoint subject publicKey privateKey : String) (nowMs : Nat)
    (protocol host : String) (pkB : List Nat)
    (hurl : urlSchemeHost endpoint = some (protocol, host))
    (hpk : base64UrlToUint8Array publicKey = some pkB)
    (hjwk : C.importJwkOk (uint8ArrayToBase64Url (listSlice pkB 1 33))
        (uint8ArrayToBase64Url (listSlice pkB 33 65)) privateKey = true) :
    createVapidAuthHeader C endpoint subject publicKey privateKey nowMs
      = some ("vapid t="
          ++ (uint8ArrayToBase64Url (utf8Encode vapidHeaderJson) ++ "."
            ++ uint8ArrayToBase64Url (utf8Encode (vapidClaimsJson
                (protocol ++ "//" ++ host) (nowMs / 1000 + 43200) subject)) ++ "."
            ++ uint8ArrayToBase64Url (C.ecdsaSign privateKey (utf8Encode
                (uint8ArrayToBase64Url (utf8Encode vapidHeaderJson) ++ "."
                  ++ uint8ArrayToBase64Url (utf8Encode (vapidClaimsJson
                      (protocol ++ "//" ++ host) (nowMs / 1000 + 43200) subject))))))
          ++ ", k=" ++ publicKey,
          "p256ecdsa=" ++ publicKey)
      ∧ (∀ host2, host2 ≠ host →
          protocol ++ "//" ++ host ≠ protocol ++ "//" ++ host2) := by
  constructor
  · simp [createVapidAuthHeader, hurl, createVapidJwt, hpk, hjwk]
  · intro host2 hne heq
    exact hne (string_append_left_cancel (protocol ++ "//") host host2 heq).symm

/-- C8 witness: concrete headers for a https endpoint. -/
theorem createVapidAuthHeader_claims_witness :
    createVapidAuthHeader toyC "https://push.example.org/send/123" "mailto:hi@example.com"
        pkStr "k" 1700000000000
      = some ("vapid t="
          ++ (uint8ArrayToBase64Url (utf8Encode vapidHeaderJson) ++ "."
            ++ uint8ArrayToBase64Url (utf8Encode (vapidClaimsJson
                ("https:" ++ "//" ++ "push.example.org") (1700000000000 / 1000 + 43200)
                "mailto:hi@example.com")) ++ "."
            ++ uint8ArrayToBase64Url (toyC.ecdsaSign "k" (utf8Encode
                (uint8ArrayToBase64Url (utf8Encode vapidHeaderJson) ++ "."
                  ++ uint8ArrayToBase64Url (utf8Encode (vapidClaimsJson
                      ("https:" ++ "//" ++ "push.example.org") (1700000000000 / 1000 + 43200)
                      "mailto:hi@example.com"))))))
          ++ ", k=" ++ pkStr,
          "p256ecdsa=" ++ pkStr) :=
  (createVapidAuthHeader_claims toyC "https://push.example.org/send/123"
    "mailto:hi@example.com" pkStr "k" 1700000000000 "https:" "push.example.org"
    (4 :: List.replicate 64 0) (by decide) (by decide) (by decide)).1

theorem find_map_upsert (t : List StoredSub) (e p a : String) :
    (t.map (fun r => if r.endpoint == e then
        ({ endpoint := e, p256dh := p, auth := a, active := true } : StoredSub) else r)).find?
      (fun r => r.endpoint == e)
    = if t.any (fun r => r.endpoint == e) then
        some { endpoint := e, p256dh := p, auth := a, active := true }
      else none := by
  induction t with
  | nil => simp
  | cons r t ih =>
    by_cases hr : (r.endpoint == e) = true
    · simp [hr, List.find?]
    · have hr2 : (r.endpoint == e) = false := by simpa using hr
      rw [List.map_cons, if_neg hr, List.find?_cons, hr2, List.any_cons, hr2,
        Bool.false_or, ih]

theorem mem_map_upsert (t : List StoredSub) (e p a : String) (r : StoredSub)
    (hr : r.endpoint ≠ e) :
    (r ∈ t.map (fun r0 => if r0.endpoint == e then
        ({ endpoint := e, p256dh := p, auth := a, active := true } : StoredSub) else r0))
      ↔ r ∈ t := by
  constructor
  · intro h
    obtain ⟨r0, hr0, heq⟩ := List.mem_map.mp h
    by_cases h0 : (r0.endpoint == e) = true
    · rw [if_pos h0] at heq
      exfalso
      apply hr
      rw [← heq]
    · rw [if_neg h0] at heq
      rw [← heq]
      exact hr0
  · intro h
    refine List.mem_map.mpr ⟨r, h, ?_⟩
    rw [if_neg (by simpa using hr)]

theorem find_append_none (t l2 : List StoredSub) (pred : StoredSub → Bool)
    (h : t.find? pred = none) : (t ++ l2).find? pred = l2.find? pred := by
  induction t with
  | nil => simp
  | cons r t ih =>
    simp only [List.find?] at h ⊢
    cases hp : pred r with
    | true => rw [hp] at h; simp at h
    | false =>
      rw [hp] at h
      simp only [List.cons_append, List.find?, hp]
      exact ih h

/-- C10: a POST to /api/push/subscribe with a valid body answers 200 and
upserts the row for its endpoint: afterwards that row carries the new
p256dh and auth and active = 1 — also when the stored row was inactive,
so a retired endpoint is revived by re-subscription — every other row is
untouched, and a row is added only when the endpoint was absent. -/
theorem subscribePOST_upsert (table : List StoredSub) (e p a : String)
    (hne : (e == "") = false) (hnp : (p == "") = false) (hna : (a == "") = false) :
    (subscribePOST true table ⟨some e, some p, some a⟩).1 = 200
    ∧ (subscribePOST true table ⟨some e, some p, some a⟩).2.find? (fun r => r.endpoint == e)
        = some { endpoint := e, p256dh := p, auth := a, active := true }
    ∧ (∀ r : StoredSub, r.endpoint ≠ e →
        (r ∈ (subscribePOST true table ⟨some e, some p, some a⟩).2 ↔ r ∈ table))
    ∧ (subscribePOST true table ⟨some e, some p, some a⟩).2.length
        = (if table.any (fun r => r.endpoint == e) then table.length
           else table.length + 1) := by
  have hpost : subscribePOST true table ⟨some e, some p, some a⟩
      = (200, upsertSubscription table e p a) := by
    simp [subscribePOST, hne, hnp, hna]
  rw [hpost]
  refine ⟨rfl, ?_, ?_, ?_⟩
  · by_cases hany : table.any (fun r => r.endpoint == e) = true
    · rw [upsertSubscription, if_pos hany, find_map_upsert, if_pos hany]
    · have hany2 : table.any (fun r => r.endpoint == e) = false := by simpa using hany
      rw [upsertSubscription, if_neg hany]
      rw [find_append_none]
      · have hself : (({ endpoint := e, p256dh := p, auth := a, active := true } :
            StoredSub).endpoint == e) = true := by simp
        rw [List.find?_cons, hself]
      · refine List.find?_eq_none.mpr ?_
        intro x hx
        have := List.any_eq_false.mp hany2 x hx
        simpa using this
  · intro r hr
    by_cases hany : table.any (fun r => r.endpoint == e) = true
    · rw [upsertSubscription, if_pos hany]
      exact mem_map_upsert table e p a r hr
    · rw [upsertSubscription, if_neg hany]
      constructor
      · intro h
        rcases List.mem_append.mp h with h1 | h1
        · exact h1
        · simp only [List.mem_singleton] at h1
          exfalso
          apply hr
          rw [h1]
      · intro h
        exact List.mem_append_left _ h
  · by_cases hany : table.any (fun r => r.endpoint == e) = true
    · rw [upsertSubscription, if_pos hany, if_pos hany]
      simp
    · rw [upsertSubscription, if_neg hany, if_neg hany]
      simp

/-- C10 witness: re-subscribing the retired endpoint replaces its key
material and reactivates it, without growing the table. -/
theorem subscribePOST_upsert_witness :
    (subscribePOST true tableW ⟨some "https://push.test/b", some pkStr, some authStr⟩).1 = 200
    ∧ (subscribePOST true tableW
        ⟨some "https://push.test/b", some pkStr, some authStr⟩).2.find?
          (fun r => r.endpoint == "https://push.test/b")
        = some (StoredSub.mk "https://push.test/b" pkStr authStr true)
    ∧ (subscribePOST true tableW
        ⟨some "https://push.test/b", some pkStr, some authStr⟩).2.length
        = (if tableW.any (fun r => r.endpoint == "https://push.test/b") then tableW.length
           else tableW.length + 1) := by
  have h := subscribePOST_upsert tableW "https://push.test/b" pkStr authStr
    (by decide) (by decide) (by decide)
  exact ⟨h.1, h.2.1, h.2.2.2⟩
